import Mathlib

/-!
# Verification of the on-chain execution coordinator

Shallow embedding of two subsystems of the deployment engine:

* the fee policy and send pipeline
  (`getNextTransactionFees`, `sendTransactionForOnchainInteraction`);
* the nonce sync engine (`getNonceSyncMessages`).

TS `bigint` fee values are non-negative here and are modelled as `Nat`
(`(x * 110n) / 100n` truncates toward zero, which on non-negative values
is `Nat` division). JS `number` nonces and transaction counts are
modelled as `Int`, so that subtractions such as
`block.number - requiredConfirmations + 1` and `pendingCount - 1`
behave as in the source.
-/

/-- `NetworkFees` tagged union: legacy `gasPrice`, or EIP-1559
`maxFeePerGas`/`maxPriorityFeePerGas`. In the source the discrimination is
`"maxFeePerGas" in fees`. -/
inductive NetworkFees where
  | legacy (gasPrice : Nat)
  | eip1559 (maxFeePerGas : Nat) (maxPriorityFeePerGas : Nat)
deriving DecidableEq, Repr

/-- A transaction already sent for an interaction: its hash and fees. -/
structure TransactionRec where
  hash : String
  fees : NetworkFees
deriving DecidableEq, Repr

/-- An `OnchainInteraction`: the logical action being driven to completion. -/
structure OnchainInteraction where
  id : Nat
  toAddr : Option String
  data : String
  value : Nat
  nonce : Option Nat
  transactions : List TransactionRec
deriving DecidableEq, Repr

/-- Message of the invariant assertion thrown when the previous transaction
was EIP-1559 but the recommended fees are legacy. -/
def eip1559DowngradeMessage : String :=
  "EIP-1559 transaction was already sent but the currently recommended fees are not EIP-1559"

/-- `getNextTransactionFees` from the send pipeline. `recommendedFees` is the
result of `client.getNetworkFees()`; the rest follows the source: if there is
no previous transaction return the recommendation, otherwise bump the last
transaction's fees by `* 110n / 100n` per field and take the field-wise
maximum with the recommendation. A legacy previous fee is widened to both
EIP-1559 fields; a legacy recommendation after an EIP-1559 transaction
trips `assertIgnitionInvariant`, modelled as `Except.error`. -/
def getNextTransactionFees (recommendedFees : NetworkFees)
    (transactions : List TransactionRec) : Except String NetworkFees :=
  match transactions.getLast? with
  | none => .ok recommendedFees
  | some transactionWithHighestFees =>
    match recommendedFees with
    | .eip1559 recMaxFee recMaxPrio =>
      let previousFees : Nat × Nat :=
        match transactionWithHighestFees.fees with
        | .legacy gasPrice => (gasPrice, gasPrice)
        | .eip1559 maxFee maxPrio => (maxFee, maxPrio)
      let bumpedMaxFee := previousFees.1 * 110 / 100
      let bumpedMaxPrio := previousFees.2 * 110 / 100
      let maxFeePerGas := if recMaxFee > bumpedMaxFee then recMaxFee else bumpedMaxFee
      let maxPriorityFeePerGas :=
        if recMaxPrio > bumpedMaxPrio then recMaxPrio else bumpedMaxPrio
      .ok (.eip1559 maxFeePerGas maxPriorityFeePerGas)
    | .legacy recGasPrice =>
      match transactionWithHighestFees.fees with
      | .eip1559 _ _ => .error eip1559DowngradeMessage
      | .legacy prevGasPrice =>
        let bumpedGasPrice := prevGasPrice * 110 / 100
        .ok (.legacy (if recGasPrice > bumpedGasPrice then recGasPrice else bumpedGasPrice))

/-- The relation claimed by the spec for consecutive fees: the new fees are
at least 110% of the previous fees, field-wise (with a legacy previous fee
read into both EIP-1559 fields when the new fees are EIP-1559). -/
def feesAtLeastTenPercentAbove : NetworkFees → NetworkFees → Prop
  | .legacy g, .legacy pg => 100 * g ≥ 110 * pg
  | .eip1559 m p, .legacy pg => 100 * m ≥ 110 * pg ∧ 100 * p ≥ 110 * pg
  | .eip1559 m p, .eip1559 pm pp => 100 * m ≥ 110 * pm ∧ 100 * p ≥ 110 * pp
  | .legacy _, .eip1559 _ _ => False

instance : ∀ f p, Decidable (feesAtLeastTenPercentAbove f p) := by
  intro f p
  cases f <;> cases p <;> simp [feesAtLeastTenPercentAbove] <;> infer_instance

/-- The relation the code actually guarantees: the new fees are at least the
integer-division bump `prev * 110 / 100` of the previous fees, field-wise. -/
def feesAtLeastFlooredBump : NetworkFees → NetworkFees → Prop
  | .legacy g, .legacy pg => g ≥ pg * 110 / 100
  | .eip1559 m p, .legacy pg => m ≥ pg * 110 / 100 ∧ p ≥ pg * 110 / 100
  | .eip1559 m p, .eip1559 pm pp => m ≥ pm * 110 / 100 ∧ p ≥ pp * 110 / 100
  | .legacy _, .eip1559 _ _ => False

instance : ∀ f p, Decidable (feesAtLeastFlooredBump f p) := by
  intro f p
  cases f <;> cases p <;> simp [feesAtLeastFlooredBump] <;> infer_instance

/-!
## Send pipeline (`sendTransactionForOnchainInteraction`)

The RPC client, nonce manager, simulation-decoding callback and journal are
external collaborators; they are modelled as fields of a `SendEnv`, and the
pipeline additionally returns the ordered trace of the side-effecting calls
it made (`eth_estimateGas`, `eth_call`, journal record, `eth_sendTransaction`),
so that ordering and absence of effects can be stated.
-/

/-- The transaction-parameter object built by the pipeline. `fees` is `none`
for the object with the `fees` key dropped; `gasLimit` is `none` before gas
estimation succeeds (the source sets `gasLimit: undefined`). -/
structure TxParams where
  toAddr : Option String
  fromAddr : String
  data : String
  value : Nat
  nonce : Nat
  fees : Option NetworkFees
  gasLimit : Option Nat
deriving DecidableEq, Repr

/-- Raw result of an `eth_call`. -/
structure RawStaticCallResult where
  returnData : String
  success : Bool
deriving DecidableEq, Repr

/-- A decoded simulation failure, as produced by the strategy's
`decodeSimulationResult` callback (covers both the simulation-error and the
strategy-error variants, whose internals the pipeline never inspects). -/
structure DecodedSimulationError where
  info : String
deriving DecidableEq, Repr

/-- The typed fatal errors thrown by the pipeline, plus the invariant
assertion raised inside `getNextTransactionFees`. -/
inductive SendPipelineError where
  | insufficientFundsForTransfer (sender : String) (amount : Nat)
  | insufficientFundsForDeploy (sender : String)
  | gasEstimationFailed (message : String)
  | invariantViolation (message : String)
deriving DecidableEq, Repr

/-- The successful outcomes of the pipeline: a decoded simulation error
returned to the caller, or a sent transaction. -/
inductive SendOutcome where
  | simulationError (decoded : DecodedSimulationError)
  | transactionSent (hash : String) (fees : NetworkFees) (nonce : Nat)
deriving DecidableEq, Repr

/-- One side-effecting call made by the pipeline, in order. -/
inductive SendAction where
  | estimateGasCall (params : TxParams)
  | ethCall (params : TxParams) (blockTag : String)
  | journalRecord (futureId : String) (networkInteractionId : Nat) (nonce : Nat)
  | sendTransactionCall (params : TxParams)
deriving DecidableEq, Repr

/-- The external collaborators of the pipeline, as pure response functions. -/
structure SendEnv where
  getNextNonce : Nat
  getNetworkFees : NetworkFees
  estimateGas : TxParams → Except String Nat
  callResult : TxParams → String → RawStaticCallResult
  decodeSimulationResult : RawStaticCallResult → Option DecodedSimulationError
  sendTransaction : TxParams → String

/-- The nonce used by the pipeline: the interaction's nonce if set, otherwise
the nonce manager's next nonce (`onchainInteraction.nonce ?? await
nonceManager.getNextNonce(sender)`). -/
def sendNonce (env : SendEnv) (onchainInteraction : OnchainInteraction) : Nat :=
  onchainInteraction.nonce.getD env.getNextNonce

/-- The `estimateGasPrams` object built by the pipeline. -/
def estimateGasParamsOf (env : SendEnv) (sender : String)
    (onchainInteraction : OnchainInteraction) (fees : NetworkFees) : TxParams :=
  { toAddr := onchainInteraction.toAddr
    fromAddr := sender
    data := onchainInteraction.data
    value := onchainInteraction.value
    nonce := sendNonce env onchainInteraction
    fees := some fees
    gasLimit := none }

/-- Whether the first character list is a prefix of the second. -/
def charListPrefix : List Char → List Char → Bool
  | [], _ => true
  | _ :: _, [] => false
  | a :: as, b :: bs => a == b && charListPrefix as bs

/-- Whether the pattern occurs as a contiguous run of the message. -/
def charListContainsPattern (pattern : List Char) : List Char → Bool
  | [] => charListPrefix pattern []
  | c :: rest =>
    charListPrefix pattern (c :: rest) || charListContainsPattern pattern rest

/-- Test of `/insufficient funds for transfer/` on the error message: the
pattern is a literal, so the regex test is substring containment. -/
def matchesInsufficientFundsForTransfer (message : String) : Bool :=
  charListContainsPattern "insufficient funds for transfer".data message.data

/-- Test of `/contract creation code storage out of gas/`. -/
def matchesContractCreationOutOfGas (message : String) : Bool :=
  charListContainsPattern "contract creation code storage out of gas".data
    message.data

/-- `sendTransactionForOnchainInteraction`: resolve the nonce, compute fees,
estimate gas; on estimation failure re-simulate without fees at `"pending"`,
return any decoded error, otherwise classify the estimation error message;
on estimation success pre-send simulate at `"pending"`, return any decoded
error, otherwise record `TRANSACTION_PREPARE_SEND` to the journal and
broadcast. Returns the outcome together with the ordered trace of
side-effecting calls. -/
def sendTransactionForOnchainInteraction (env : SendEnv) (sender : String)
    (onchainInteraction : OnchainInteraction) (futureId : String) :
    Except SendPipelineError SendOutcome × List SendAction :=
  let nonce := sendNonce env onchainInteraction
  match getNextTransactionFees env.getNetworkFees onchainInteraction.transactions with
  | .error message => (.error (.invariantViolation message), [])
  | .ok fees =>
    let estimateGasPrams := estimateGasParamsOf env sender onchainInteraction fees
    match env.estimateGas estimateGasPrams with
    | .error errorMessage =>
      -- Fees are removed before simulating, since gas estimation failed.
      let paramsWithoutFees := { estimateGasPrams with fees := none }
      let failedEstimateGasSimulationResult := env.callResult paramsWithoutFees "pending"
      let trace := [.estimateGasCall estimateGasPrams,
                    .ethCall paramsWithoutFees "pending"]
      match env.decodeSimulationResult failedEstimateGasSimulationResult with
      | some decoded => (.ok (.simulationError decoded), trace)
      | none =>
        if matchesInsufficientFundsForTransfer errorMessage then
          (.error (.insufficientFundsForTransfer sender estimateGasPrams.value), trace)
        else if matchesContractCreationOutOfGas errorMessage then
          (.error (.insufficientFundsForDeploy sender), trace)
        else
          (.error (.gasEstimationFailed errorMessage), trace)
    | .ok gasLimit =>
      let transactionParams := { estimateGasPrams with gasLimit := some gasLimit }
      let simulationResult := env.callResult transactionParams "pending"
      match env.decodeSimulationResult simulationResult with
      | some decoded =>
        (.ok (.simulationError decoded),
         [.estimateGasCall estimateGasPrams, .ethCall transactionParams "pending"])
      | none =>
        let txHash := env.sendTransaction transactionParams
        (.ok (.transactionSent txHash fees nonce),
         [.estimateGasCall estimateGasPrams,
          .ethCall transactionParams "pending",
          .journalRecord futureId onchainInteraction.id transactionParams.nonce,
          .sendTransactionCall transactionParams])

/-- Whether a pipeline result is the sent outcome. -/
def isSentOutcome : Except SendPipelineError SendOutcome → Bool
  | .ok (.transactionSent _ _ _) => true
  | _ => false

/-- Whether an action is a journal write. -/
def SendAction.isJournalRecord : SendAction → Bool
  | .journalRecord _ _ _ => true
  | _ => false

/-- Whether an action is a network broadcast. -/
def SendAction.isSendTransactionCall : SendAction → Bool
  | .sendTransactionCall _ => true
  | _ => false

/-!
## Nonce sync engine (`getNonceSyncMessages`)

The per-sender pending list is taken as input (it is what
`createMapFromSenderToNonceAndTransactions` builds from the deployment
state); the RPC client is modelled as pure response functions. JS `number`
nonces and counts are `Int`.
-/

/-- One entry of the per-sender pending list: an Ignition interaction with an
allocated nonce and the hashes of the transactions sent for it. -/
structure PendingIgnitionTransaction where
  nonce : Int
  transactions : List String
  executionStateId : String
  networkInteractionId : Int
deriving DecidableEq, Repr

/-- The reconciliation messages returned by the sync engine. -/
inductive NonceSyncMessage where
  | onchainInteractionReplacedByUser (futureId : String) (networkInteractionId : Int)
  | onchainInteractionDropped (futureId : String) (networkInteractionId : Int)
deriving DecidableEq, Repr

/-- The blocking errors (`IgnitionError`s) thrown by the sync engine. -/
inductive NonceSyncError where
  | waitingForConfirmations (sender : String) (requiredConfirmations : Int)
  | waitingForNonce (sender : String) (nonce : Int) (requiredConfirmations : Int)
deriving DecidableEq, Repr

/-- The RPC responses the sync engine consumes: the latest block number,
transaction counts per sender at a numeric block / `"pending"` / `"latest"`,
and whether `eth_getTransactionByHash` still knows a hash. -/
structure JsonRpcClientModel where
  blockNumber : Int
  getTransactionCountAt : String → Int → Int
  getTransactionCountPending : String → Int
  getTransactionCountLatest : String → Int
  getTransactionKnown : String → Bool

/-- `confirmedBlockNumber`: `block.number - requiredConfirmations + 1` when
non-negative, otherwise `none`. -/
def confirmedBlockNumber (blockNumber requiredConfirmations : Int) : Option Int :=
  if blockNumber - requiredConfirmations + 1 ≥ 0 then
    some (blockNumber - requiredConfirmations + 1)
  else
    none

/-- The three per-sender transaction counts read at the start of a pass. -/
structure SenderNonceCounts where
  safeConfirmationsCount : Option Int
  pendingCount : Int
  latestCount : Int
deriving DecidableEq, Repr

/-- The counts the engine reads for one sender: `safeConfirmationsCount` at
the confirmed block (if any), plus the `"pending"` and `"latest"` counts. -/
def senderCounts (client : JsonRpcClientModel) (requiredConfirmations : Int)
    (sender : String) : SenderNonceCounts :=
  { safeConfirmationsCount :=
      (confirmedBlockNumber client.blockNumber requiredConfirmations).map
        (client.getTransactionCountAt sender)
    pendingCount := client.getTransactionCountPending sender
    latestCount := client.getTransactionCountLatest sender }

/-- `hasOnchainUnconfirmedPendingTransactions`: with no safe count, any
pending transaction is unconfirmed; otherwise unconfirmed iff the safe and
pending counts differ. -/
def hasOnchainUnconfirmedPendingTransactions (counts : SenderNonceCounts) : Bool :=
  match counts.safeConfirmationsCount with
  | none => counts.pendingCount > 0
  | some safe => safe ≠ counts.pendingCount

/-- The body of the per-entry loop: skip if any of the entry's transactions
is still known to the node; otherwise Case 1 (`latestCount > nonce`:
replaced, or waiting for the replacement's confirmations), Case 2
(`pendingCount > nonce`: waiting for the pending replacement), Case 3
(dropped). -/
def processPendingIgnitionTransaction (getTransactionKnown : String → Bool)
    (counts : SenderNonceCounts) (sender : String) (requiredConfirmations : Int)
    (t : PendingIgnitionTransaction) :
    Except NonceSyncError (List NonceSyncMessage) :=
  if t.transactions.any getTransactionKnown then
    .ok []
  else if counts.latestCount > t.nonce then
    let hasEnoughConfirmations : Bool :=
      match counts.safeConfirmationsCount with
      | none => false
      | some safe => safe ≥ t.nonce
    if hasEnoughConfirmations then
      .ok [.onchainInteractionReplacedByUser t.executionStateId t.networkInteractionId]
    else
      .error (.waitingForNonce sender t.nonce requiredConfirmations)
  else if counts.pendingCount > t.nonce then
    .error (.waitingForNonce sender t.nonce requiredConfirmations)
  else
    .ok [.onchainInteractionDropped t.executionStateId t.networkInteractionId]

/-- The entry loop for one sender, collecting messages in entry order. -/
def processPendingIgnitionTransactions (getTransactionKnown : String → Bool)
    (counts : SenderNonceCounts) (sender : String) (requiredConfirmations : Int)
    (entries : List PendingIgnitionTransaction) :
    Except NonceSyncError (List NonceSyncMessage) :=
  entries.foldlM
    (fun messages t =>
      (processPendingIgnitionTransaction getTransactionKnown counts sender
          requiredConfirmations t).map (messages ++ ·))
    []

/-- Case 4's test `highestPendingNonce + 1 < pendingCount`, where
`highestPendingNonce = Math.max(...nonces)`. `Math.max()` of no arguments is
`-Infinity`, so on an empty list the comparison holds. -/
def caseFourTriggered (nonces : List Int) (pendingCount : Int) : Bool :=
  match nonces with
  | [] => true
  | n :: rest => rest.foldl max n + 1 < pendingCount

/-- The per-sender pass: Case 0 (empty list with unconfirmed on-chain
transactions), then the entry loop, then Case 4 (user transactions above
our nonce range). -/
def processSender (getTransactionKnown : String → Bool) (counts : SenderNonceCounts)
    (sender : String) (requiredConfirmations : Int)
    (pendingIgnitionTransactions : List PendingIgnitionTransaction) :
    Except NonceSyncError (List NonceSyncMessage) :=
  let hasUnconfirmed := hasOnchainUnconfirmedPendingTransactions counts
  if pendingIgnitionTransactions.isEmpty && hasUnconfirmed then
    .error (.waitingForConfirmations sender requiredConfirmations)
  else
    match processPendingIgnitionTransactions getTransactionKnown counts sender
        requiredConfirmations pendingIgnitionTransactions with
    | .error e => .error e
    | .ok messages =>
      if caseFourTriggered (pendingIgnitionTransactions.map (·.nonce))
            counts.pendingCount
          && hasUnconfirmed then
        .error (.waitingForNonce sender (counts.pendingCount - 1) requiredConfirmations)
      else
        .ok messages

/-- `getNonceSyncMessages` over the whole per-sender map, concatenating each
sender's messages; the first thrown error aborts the pass. -/
def getNonceSyncMessages (client : JsonRpcClientModel)
    (pendingTransactionsPerSender : List (String × List PendingIgnitionTransaction))
    (requiredConfirmations : Int) :
    Except NonceSyncError (List NonceSyncMessage) :=
  pendingTransactionsPerSender.foldlM
    (fun messages senderEntry =>
      (processSender client.getTransactionKnown
          (senderCounts client requiredConfirmations senderEntry.1) senderEntry.1
          requiredConfirmations senderEntry.2).map (messages ++ ·))
    []

/-- The widening of a previous transaction's fees to the EIP-1559 field pair,
as performed in `getNextTransactionFees` when the recommendation is EIP-1559:
a legacy `gasPrice` is used for both fields. -/
def previousFeesAsEip1559 : NetworkFees → Nat × Nat
  | .legacy gasPrice => (gasPrice, gasPrice)
  | .eip1559 maxFee maxPrio => (maxFee, maxPrio)

/-!
## Theorems
-/

lemma ite_gt_eq_max (a b : Nat) : (if a > b then a else b) = max a b := by
  split <;> omega

/-- Claim C3: `getNextTransactionFees` returns the recommendation when the
interaction has no transactions; with a previous transaction and an EIP-1559
recommendation it returns the field-wise maximum of the recommendation and
the floored 110% bump of the previous fees (a legacy previous `gasPrice`
standing in for both fields); with both the recommendation and the previous
fees legacy it returns the maximum of the recommended `gasPrice` and the
floored 110% bump of the previous `gasPrice`. -/
theorem getNextTransactionFees_spec (recommended : NetworkFees)
    (transactions : List TransactionRec) :
    (transactions = [] → getNextTransactionFees recommended transactions = .ok recommended)
    ∧ (∀ t rm rp, transactions.getLast? = some t →
        recommended = NetworkFees.eip1559 rm rp →
        getNextTransactionFees recommended transactions =
          .ok (.eip1559 (max rm ((previousFeesAsEip1559 t.fees).1 * 110 / 100))
            (max rp ((previousFeesAsEip1559 t.fees).2 * 110 / 100))))
    ∧ (∀ t rg pg, transactions.getLast? = some t →
        t.fees = NetworkFees.legacy pg → recommended = NetworkFees.legacy rg →
        getNextTransactionFees recommended transactions =
          .ok (.legacy (max rg (pg * 110 / 100)))) := by
  refine ⟨?_, ?_, ?_⟩
  · intro h
    subst h
    simp [getNextTransactionFees]
  · intro t rm rp hlast hrec
    subst hrec
    cases hf : t.fees <;>
      simp [getNextTransactionFees, hlast, hf, previousFeesAsEip1559, ite_gt_eq_max]
  · intro t rg pg hlast hfees hrec
    subst hrec
    simp [getNextTransactionFees, hlast, hfees, ite_gt_eq_max]

/-- Witness for C3 at the spec's literal scenarios: a first send returns the
recommendation unchanged; a resend after `{100, 2}` with recommendation
`{90, 1}` yields `{110, 2}`; a legacy resend after `gasPrice 100` with
recommendation `90` yields `110`. -/
theorem getNextTransactionFees_spec_witness :
    getNextTransactionFees (.eip1559 90 1) [] = .ok (.eip1559 90 1)
    ∧ getNextTransactionFees (.eip1559 90 1) [⟨"0xaa", .eip1559 100 2⟩] =
        .ok (.eip1559 110 2)
    ∧ getNextTransactionFees (.legacy 90) [⟨"0xaa", .legacy 100⟩] =
        .ok (.legacy 110) := by
  refine ⟨(getNextTransactionFees_spec (.eip1559 90 1) []).1 rfl, ?_, ?_⟩
  · have h := (getNextTransactionFees_spec (.eip1559 90 1)
      [⟨"0xaa", .eip1559 100 2⟩]).2.1 ⟨"0xaa", .eip1559 100 2⟩ 90 1 rfl rfl
    norm_num [previousFeesAsEip1559] at h
    exact h
  · have h := (getNextTransactionFees_spec (.legacy 90)
      [⟨"0xaa", .legacy 100⟩]).2.2 ⟨"0xaa", .legacy 100⟩ 90 100 rfl rfl rfl
    norm_num at h
    exact h

/-- Claim C8: if the last transaction of the interaction used EIP-1559 fees
and the node now recommends legacy fees, `getNextTransactionFees` raises the
downgrade invariant error and never returns a fee value. -/
theorem getNextTransactionFees_downgrade (rg : Nat)
    (transactions : List TransactionRec) (t : TransactionRec) (pm pp : Nat)
    (hlast : transactions.getLast? = some t)
    (hfees : t.fees = NetworkFees.eip1559 pm pp) :
    getNextTransactionFees (.legacy rg) transactions = .error eip1559DowngradeMessage
    ∧ ∀ f, getNextTransactionFees (.legacy rg) transactions ≠ .ok f := by
  have h : getNextTransactionFees (.legacy rg) transactions =
      .error eip1559DowngradeMessage := by
    simp [getNextTransactionFees, hlast, hfees]
  exact ⟨h, fun f hf => by rw [h] at hf; exact Except.noConfusion hf⟩

/-- Witness for C8: a legacy recommendation after an EIP-1559 transaction
fails with the downgrade message. -/
theorem getNextTransactionFees_downgrade_witness :
    getNextTransactionFees (.legacy 90) [⟨"0xaa", .eip1559 100 2⟩] =
      .error eip1559DowngradeMessage :=
  (getNextTransactionFees_downgrade 90 [⟨"0xaa", .eip1559 100 2⟩]
    ⟨"0xaa", .eip1559 100 2⟩ 100 2 rfl rfl).1

/-- Counterexample to C9 as stated: with a previous legacy `gasPrice` of `1`
and a recommended `gasPrice` of `1`, the computed next fee is `1`, and
`1 ≥ 1.10 × 1` fails — the bump is `prev * 110 / 100` with integer floor
division, which loses the factor 1.10 on small values. -/
theorem feeBump_tenPercent_counterexample :
    getNextTransactionFees (.legacy 1) [⟨"0xaa", .legacy 1⟩] = .ok (.legacy 1)
    ∧ ¬ feesAtLeastTenPercentAbove (.legacy 1) (.legacy 1) := by
  constructor
  · rfl
  · decide

/-- Claim C9 (amended): whenever `getNextTransactionFees` returns fees for an
interaction with at least one transaction, the returned fees are field-wise
at least `prev * 110 / 100` (floored integer division) of the last
transaction's fees, with a legacy previous `gasPrice` bounding both EIP-1559
fields. -/
theorem getNextTransactionFees_flooredBump (recommended : NetworkFees)
    (transactions : List TransactionRec) (t : TransactionRec) (f : NetworkFees)
    (hlast : transactions.getLast? = some t)
    (hok : getNextTransactionFees recommended transactions = .ok f) :
    feesAtLeastFlooredBump f t.fees := by
  cases recommended with
  | legacy rg =>
    cases hf : t.fees with
    | legacy pg =>
      simp [getNextTransactionFees, hlast, hf, ite_gt_eq_max] at hok
      subst hok
      simp only [feesAtLeastFlooredBump]
      omega
    | eip1559 pm pp =>
      simp [getNextTransactionFees, hlast, hf] at hok
  | eip1559 rm rp =>
    cases hf : t.fees with
    | legacy pg =>
      simp [getNextTransactionFees, hlast, hf, previousFeesAsEip1559,
        ite_gt_eq_max] at hok
      subst hok
      simp only [feesAtLeastFlooredBump]
      omega
    | eip1559 pm pp =>
      simp [getNextTransactionFees, hlast, hf, previousFeesAsEip1559,
        ite_gt_eq_max] at hok
      subst hok
      simp only [feesAtLeastFlooredBump]
      omega

/-- Witness for the amended C9: the floored bound holds at the
counterexample's own input. -/
theorem getNextTransactionFees_flooredBump_witness :
    feesAtLeastFlooredBump (.legacy 1) (NetworkFees.legacy 1) :=
  getNextTransactionFees_flooredBump (.legacy 1) [⟨"0xaa", .legacy 1⟩]
    ⟨"0xaa", .legacy 1⟩ (.legacy 1) rfl rfl

/-- Claim C1: for a sync-pass entry all of whose transaction hashes are
unknown to the node and whose nonce satisfies `latestCount > nonce`, the
entry loop emits `OnchainInteractionReplacedByUser` when the safe count is
defined and at least the nonce, and otherwise raises
`WAITING_FOR_NONCE{sender, nonce, requiredConfirmations}`. -/
theorem nonceSync_replacedByUser (getTransactionKnown : String → Bool)
    (counts : SenderNonceCounts) (sender : String) (requiredConfirmations : Int)
    (t : PendingIgnitionTransaction)
    (hunknown : ∀ h ∈ t.transactions, getTransactionKnown h = false)
    (hlatest : counts.latestCount > t.nonce) :
    (∀ safe, counts.safeConfirmationsCount = some safe → safe ≥ t.nonce →
      processPendingIgnitionTransaction getTransactionKnown counts sender
          requiredConfirmations t =
        .ok [.onchainInteractionReplacedByUser t.executionStateId
          t.networkInteractionId])
    ∧ (counts.safeConfirmationsCount = none →
      processPendingIgnitionTransaction getTransactionKnown counts sender
          requiredConfirmations t =
        .error (.waitingForNonce sender t.nonce requiredConfirmations))
    ∧ (∀ safe, counts.safeConfirmationsCount = some safe → safe < t.nonce →
      processPendingIgnitionTransaction getTransactionKnown counts sender
          requiredConfirmations t =
        .error (.waitingForNonce sender t.nonce requiredConfirmations)) := by
  have hany : t.transactions.any getTransactionKnown = false := by
    simp only [List.any_eq_false]
    intro x hx
    simp [hunknown x hx]
  refine ⟨?_, ?_, ?_⟩
  · intro safe hsafe hge
    simp [processPendingIgnitionTransaction, hany, hlatest, hsafe, hge]
  · intro hsafe
    simp [processPendingIgnitionTransaction, hany, hlatest, hsafe]
  · intro safe hsafe hlt
    simp [processPendingIgnitionTransaction, hany, hlatest, hsafe,
      Int.not_le.mpr hlt]

/-- Witness for C1 at the spec's scenarios 4 and 5: nonce 5, latest and
pending counts 6; with safe count 6 the entry is replaced, with safe count 5
or no safe count the engine waits for the nonce. -/
theorem nonceSync_replacedByUser_witness :
    processPendingIgnitionTransaction (fun _ => false) ⟨some 6, 6, 6⟩ "0xA" 5
        ⟨5, ["0xaa"], "fut1", 1⟩ =
      .ok [.onchainInteractionReplacedByUser "fut1" 1]
    ∧ processPendingIgnitionTransaction (fun _ => false) ⟨some 4, 6, 6⟩ "0xA" 5
        ⟨5, ["0xaa"], "fut1", 1⟩ =
      .error (.waitingForNonce "0xA" 5 5)
    ∧ processPendingIgnitionTransaction (fun _ => false) ⟨none, 6, 6⟩ "0xA" 5
        ⟨5, ["0xaa"], "fut1", 1⟩ =
      .error (.waitingForNonce "0xA" 5 5) := by
  refine ⟨?_, ?_, ?_⟩
  · exact (nonceSync_replacedByUser (fun _ => false) ⟨some 6, 6, 6⟩ "0xA" 5
      ⟨5, ["0xaa"], "fut1", 1⟩ (by intro h _; rfl) (by norm_num)).1 6 rfl
      (by norm_num)
  · exact (nonceSync_replacedByUser (fun _ => false) ⟨some 4, 6, 6⟩ "0xA" 5
      ⟨5, ["0xaa"], "fut1", 1⟩ (by intro h _; rfl) (by norm_num)).2.2 4 rfl
      (by norm_num)
  · exact (nonceSync_replacedByUser (fun _ => false) ⟨none, 6, 6⟩ "0xA" 5
      ⟨5, ["0xaa"], "fut1", 1⟩ (by intro h _; rfl) (by norm_num)).2.1 rfl

/-- Claim C2: an entry with at least one hash still known to the node is
skipped (no message, no error); an entry with all hashes unknown and
`latestCount ≤ nonce` raises `WAITING_FOR_NONCE` when `pendingCount > nonce`
and emits `OnchainInteractionDropped` when `pendingCount ≤ nonce`. -/
theorem nonceSync_skip_pending_dropped (getTransactionKnown : String → Bool)
    (counts : SenderNonceCounts) (sender : String) (requiredConfirmations : Int)
    (t : PendingIgnitionTransaction) :
    (t.transactions.any getTransactionKnown = true →
      processPendingIgnitionTransaction getTransactionKnown counts sender
        requiredConfirmations t = .ok [])
    ∧ (t.transactions.any getTransactionKnown = false →
        counts.latestCount ≤ t.nonce →
      (counts.pendingCount > t.nonce →
        processPendingIgnitionTransaction getTransactionKnown counts sender
            requiredConfirmations t =
          .error (.waitingForNonce sender t.nonce requiredConfirmations))
      ∧ (counts.pendingCount ≤ t.nonce →
        processPendingIgnitionTransaction getTransactionKnown counts sender
            requiredConfirmations t =
          .ok [.onchainInteractionDropped t.executionStateId
            t.networkInteractionId])) := by
  refine ⟨?_, ?_⟩
  · intro hany
    simp [processPendingIgnitionTransaction, hany]
  · intro hany hlatest
    refine ⟨?_, ?_⟩
    · intro hpending
      simp [processPendingIgnitionTransaction, hany, Int.not_lt.mpr hlatest,
        hpending]
    · intro hpending
      simp [processPendingIgnitionTransaction, hany, Int.not_lt.mpr hlatest,
        Int.not_lt.mpr hpending]

/-- Witness for C2: a still-known hash is skipped; with all hashes unknown,
latest count 5 and nonce 5, a pending count of 6 waits for the nonce
(scenario 6) and a pending count of 5 reports the interaction dropped
(scenario 3). -/
theorem nonceSync_skip_pending_dropped_witness :
    processPendingIgnitionTransaction (fun _ => true) ⟨some 5, 6, 5⟩ "0xA" 5
        ⟨5, ["0xaa"], "fut1", 1⟩ = .ok []
    ∧ processPendingIgnitionTransaction (fun _ => false) ⟨some 5, 6, 5⟩ "0xA" 5
        ⟨5, ["0xaa"], "fut1", 1⟩ = .error (.waitingForNonce "0xA" 5 5)
    ∧ processPendingIgnitionTransaction (fun _ => false) ⟨some 5, 5, 5⟩ "0xA" 5
        ⟨5, ["0xaa"], "fut1", 1⟩ =
      .ok [.onchainInteractionDropped "fut1" 1] := by
  refine ⟨?_, ?_, ?_⟩
  · exact (nonceSync_skip_pending_dropped (fun _ => true) ⟨some 5, 6, 5⟩ "0xA" 5
      ⟨5, ["0xaa"], "fut1", 1⟩).1 rfl
  · exact ((nonceSync_skip_pending_dropped (fun _ => false) ⟨some 5, 6, 5⟩ "0xA"
      5 ⟨5, ["0xaa"], "fut1", 1⟩).2 rfl (by norm_num)).1 (by norm_num)
  · exact ((nonceSync_skip_pending_dropped (fun _ => false) ⟨some 5, 5, 5⟩ "0xA"
      5 ⟨5, ["0xaa"], "fut1", 1⟩).2 rfl (by norm_num)).2 (by norm_num)

/-- Claim C6: for a sender with an empty pending list, the sync pass raises
`WAITING_FOR_CONFIRMATIONS{sender, requiredConfirmations}` exactly when
there are unconfirmed on-chain transactions — pending count positive when
the safe count is undefined (the confirmed block number
`block.number - requiredConfirmations + 1` is negative), safe count
different from pending count otherwise — and contributes no messages and no
error when there are none. -/
theorem nonceSync_emptySender (client : JsonRpcClientModel) (sender : String)
    (requiredConfirmations : Int) :
    ((senderCounts client requiredConfirmations sender).safeConfirmationsCount =
        none ↔ client.blockNumber - requiredConfirmations + 1 < 0)
    ∧ (hasOnchainUnconfirmedPendingTransactions
          (senderCounts client requiredConfirmations sender) = true ↔
        (if client.blockNumber - requiredConfirmations + 1 < 0 then
          0 < client.getTransactionCountPending sender
        else
          client.getTransactionCountAt sender
              (client.blockNumber - requiredConfirmations + 1) ≠
            client.getTransactionCountPending sender))
    ∧ (hasOnchainUnconfirmedPendingTransactions
          (senderCounts client requiredConfirmations sender) = true →
        getNonceSyncMessages client [(sender, [])] requiredConfirmations =
          .error (.waitingForConfirmations sender requiredConfirmations))
    ∧ (hasOnchainUnconfirmedPendingTransactions
          (senderCounts client requiredConfirmations sender) = false →
        getNonceSyncMessages client [(sender, [])] requiredConfirmations =
          .ok []) := by
  refine ⟨?_, ?_, ?_, ?_⟩
  · by_cases hc : client.blockNumber - requiredConfirmations + 1 < 0
    · have hc' : ¬(client.blockNumber - requiredConfirmations + 1 ≥ 0) := by
        omega
      simp [senderCounts, confirmedBlockNumber, hc, hc']
    · have hc' : client.blockNumber - requiredConfirmations + 1 ≥ 0 := by omega
      simp [senderCounts, confirmedBlockNumber, hc, hc']
  · by_cases hc : client.blockNumber - requiredConfirmations + 1 < 0
    · have hc' : ¬(client.blockNumber - requiredConfirmations + 1 ≥ 0) := by
        omega
      simp [hasOnchainUnconfirmedPendingTransactions, senderCounts,
        confirmedBlockNumber, hc, hc']
    · have hc' : client.blockNumber - requiredConfirmations + 1 ≥ 0 := by omega
      simp [hasOnchainUnconfirmedPendingTransactions, senderCounts,
        confirmedBlockNumber, hc, hc']
  · intro h
    simp [getNonceSyncMessages, List.foldlM, processSender, h, Except.map]
  · intro h
    simp [getNonceSyncMessages, List.foldlM, processSender, h,
      processPendingIgnitionTransactions, caseFourTriggered, Except.map,
      pure, Except.pure, Bind.bind, Except.bind]

/-- Witness for C6: at block 10 with 5 required confirmations, a sender with
safe count 3 and pending count 10 blocks on confirmations; a sender with
equal safe and pending counts contributes nothing; at block 2 the safe count
is undefined. -/
theorem nonceSync_emptySender_witness :
    (senderCounts
        ⟨2, fun _ _ => 0, fun _ => 0, fun _ => 0, fun _ => false⟩ 5
        "0xA").safeConfirmationsCount = none
    ∧ getNonceSyncMessages
        ⟨10, fun _ _ => 3, fun _ => 10, fun _ => 10, fun _ => false⟩
        [("0xA", [])] 5 = .error (.waitingForConfirmations "0xA" 5)
    ∧ getNonceSyncMessages
        ⟨10, fun _ _ => 10, fun _ => 10, fun _ => 10, fun _ => false⟩
        [("0xA", [])] 5 = .ok [] := by
  refine ⟨?_, ?_, ?_⟩
  · exact (nonceSync_emptySender
      ⟨2, fun _ _ => 0, fun _ => 0, fun _ => 0, fun _ => false⟩ "0xA" 5).1.mpr
      (by norm_num)
  · exact (nonceSync_emptySender
      ⟨10, fun _ _ => 3, fun _ => 10, fun _ => 10, fun _ => false⟩ "0xA"
      5).2.2.1 rfl
  · exact (nonceSync_emptySender
      ⟨10, fun _ _ => 10, fun _ => 10, fun _ => 10, fun _ => false⟩ "0xA"
      5).2.2.2 rfl

/-- Claim C7: for a sender whose entry loop completed without raising, if
`max(list nonces) + 1 < pendingCount` and there are unconfirmed on-chain
transactions, the pass raises `WAITING_FOR_NONCE{sender, pendingCount - 1,
requiredConfirmations}`; without unconfirmed transactions it returns the
collected messages without raising. -/
theorem nonceSync_caseFour (getTransactionKnown : String → Bool)
    (counts : SenderNonceCounts) (sender : String) (requiredConfirmations : Int)
    (entries : List PendingIgnitionTransaction)
    (messages : List NonceSyncMessage) (hne : entries ≠ [])
    (hok : processPendingIgnitionTransactions getTransactionKnown counts sender
      requiredConfirmations entries = .ok messages) :
    (caseFourTriggered (entries.map (·.nonce)) counts.pendingCount = true →
      hasOnchainUnconfirmedPendingTransactions counts = true →
      processSender getTransactionKnown counts sender requiredConfirmations
          entries =
        .error (.waitingForNonce sender (counts.pendingCount - 1)
          requiredConfirmations))
    ∧ (hasOnchainUnconfirmedPendingTransactions counts = false →
      processSender getTransactionKnown counts sender requiredConfirmations
        entries = .ok messages) := by
  have hie : entries.isEmpty = false := by
    cases entries with
    | nil => exact absurd rfl hne
    | cons a l => rfl
  constructor
  · intro hc4 hunc
    simp [processSender, hie, hok, hc4, hunc]
  · intro hunc
    simp [processSender, hie, hok, hunc]

/-- Witness for C7: a single still-live entry at nonce 5 with pending count
10; with safe count 3 the pass blocks on nonce 9, with safe count 10 it
returns no messages. -/
theorem nonceSync_caseFour_witness :
    processSender (fun _ => true) ⟨some 3, 10, 0⟩ "0xA" 5
        [⟨5, ["0xaa"], "fut1", 1⟩] = .error (.waitingForNonce "0xA" 9 5)
    ∧ processSender (fun _ => true) ⟨some 10, 10, 0⟩ "0xA" 5
        [⟨5, ["0xaa"], "fut1", 1⟩] = .ok [] := by
  constructor
  · exact (nonceSync_caseFour (fun _ => true) ⟨some 3, 10, 0⟩ "0xA" 5
      [⟨5, ["0xaa"], "fut1", 1⟩] [] (by simp) rfl).1 (by decide) rfl
  · exact (nonceSync_caseFour (fun _ => true) ⟨some 10, 10, 0⟩ "0xA" 5
      [⟨5, ["0xaa"], "fut1", 1⟩] [] (by simp) rfl).2 rfl

/-- The `paramsWithoutFees` object of the failed-gas-estimation path: the
estimation parameters with the `fees` key dropped. -/
def paramsWithoutFeesOf (env : SendEnv) (sender : String)
    (onchainInteraction : OnchainInteraction) (fees : NetworkFees) : TxParams :=
  { estimateGasParamsOf env sender onchainInteraction fees with fees := none }

/-- The `transactionParams` object of the successful-estimation path: the
estimation parameters with the estimated gas limit filled in. -/
def transactionParamsOf (env : SendEnv) (sender : String)
    (onchainInteraction : OnchainInteraction) (fees : NetworkFees)
    (gasLimit : Nat) : TxParams :=
  { estimateGasParamsOf env sender onchainInteraction fees with
    gasLimit := some gasLimit }

/-- Claim C4: whenever the pipeline returns the sent outcome, its trace holds
a `TRANSACTION_PREPARE_SEND` journal record, carrying the future id, the
interaction id and the nonce, at a position strictly before the broadcast,
and the broadcast parameters carry exactly the returned nonce and fees. -/
theorem sendTransaction_journalBeforeBroadcast (env : SendEnv) (sender : String)
    (onchainInteraction : OnchainInteraction) (futureId : String)
    (hash : String) (fees : NetworkFees) (nonce : Nat) (trace : List SendAction)
    (hsent : sendTransactionForOnchainInteraction env sender onchainInteraction
      futureId = (.ok (.transactionSent hash fees nonce), trace)) :
    ∃ i j params, i < j
      ∧ trace.get? i = some (.journalRecord futureId onchainInteraction.id nonce)
      ∧ trace.get? j = some (.sendTransactionCall params)
      ∧ params.nonce = nonce ∧ params.fees = some fees := by
  simp only [sendTransactionForOnchainInteraction] at hsent
  split at hsent
  · simp [Prod.ext_iff] at hsent
  · split at hsent
    · split at hsent
      · simp [Prod.ext_iff] at hsent
      · split at hsent
        · simp [Prod.ext_iff] at hsent
        · split at hsent <;> simp [Prod.ext_iff] at hsent
    · split at hsent
      · simp [Prod.ext_iff] at hsent
      · simp only [Prod.mk.injEq, Except.ok.injEq,
          SendOutcome.transactionSent.injEq] at hsent
        obtain ⟨⟨-, hfees, hnonce⟩, htrace⟩ := hsent
        subst hfees hnonce htrace
        exact ⟨2, 3, _, by norm_num, rfl, rfl, rfl, rfl⟩

/-- Witness for C4 at the spec's happy-path scenario: first send with no
prior nonce, pending nonce 5, recommended fees `{100, 2}`; the journal
record at index 2 precedes the broadcast at index 3, which carries nonce 5
and fees `{100, 2}`. -/
theorem sendTransaction_journalBeforeBroadcast_witness :
    ∃ i j params, i < j
      ∧ (sendTransactionForOnchainInteraction
          ⟨5, .eip1559 100 2, fun _ => .ok 21000, fun _ _ => ⟨"", true⟩,
            fun _ => none, fun _ => "0xaa"⟩ "0xA"
          ⟨1, some "0xB", "", 0, none, []⟩ "fut1").2.get? i =
        some (.journalRecord "fut1" 1 5)
      ∧ (sendTransactionForOnchainInteraction
          ⟨5, .eip1559 100 2, fun _ => .ok 21000, fun _ _ => ⟨"", true⟩,
            fun _ => none, fun _ => "0xaa"⟩ "0xA"
          ⟨1, some "0xB", "", 0, none, []⟩ "fut1").2.get? j =
        some (.sendTransactionCall params)
      ∧ params.nonce = 5 ∧ params.fees = some (.eip1559 100 2) :=
  sendTransaction_journalBeforeBroadcast
    ⟨5, .eip1559 100 2, fun _ => .ok 21000, fun _ _ => ⟨"", true⟩,
      fun _ => none, fun _ => "0xaa"⟩ "0xA" ⟨1, some "0xB", "", 0, none, []⟩
    "fut1" "0xaa" (.eip1559 100 2) 5 _ rfl

/-- Claim C5: when gas estimation fails, the pipeline re-simulates with the
fees field removed at block tag `"pending"` (and performs no further calls);
a decoded simulation error on that result is returned as the outcome;
otherwise the error message is classified in order —
`INSUFFICIENT_FUNDS_FOR_TRANSFER` with the sender and the transaction's
value on `/insufficient funds for transfer/`,
`INSUFFICIENT_FUNDS_FOR_DEPLOY` with the sender on
`/contract creation code storage out of gas/`, and `GAS_ESTIMATION_FAILED`
with the node's message in every other case. -/
theorem sendTransaction_estimationFailure (env : SendEnv) (sender : String)
    (onchainInteraction : OnchainInteraction) (futureId : String)
    (fees : NetworkFees) (errorMessage : String)
    (hfee : getNextTransactionFees env.getNetworkFees
      onchainInteraction.transactions = .ok fees)
    (hest : env.estimateGas (estimateGasParamsOf env sender onchainInteraction
      fees) = .error errorMessage) :
    ((sendTransactionForOnchainInteraction env sender onchainInteraction
        futureId).2 =
      [.estimateGasCall (estimateGasParamsOf env sender onchainInteraction fees),
       .ethCall (paramsWithoutFeesOf env sender onchainInteraction fees)
         "pending"])
    ∧ (∀ d, env.decodeSimulationResult
          (env.callResult (paramsWithoutFeesOf env sender onchainInteraction
            fees) "pending") = some d →
        (sendTransactionForOnchainInteraction env sender onchainInteraction
          futureId).1 = .ok (.simulationError d))
    ∧ (env.decodeSimulationResult
          (env.callResult (paramsWithoutFeesOf env sender onchainInteraction
            fees) "pending") = none →
        (matchesInsufficientFundsForTransfer errorMessage = true →
          (sendTransactionForOnchainInteraction env sender onchainInteraction
            futureId).1 =
            .error (.insufficientFundsForTransfer sender
              onchainInteraction.value))
        ∧ (matchesInsufficientFundsForTransfer errorMessage = false →
           matchesContractCreationOutOfGas errorMessage = true →
          (sendTransactionForOnchainInteraction env sender onchainInteraction
            futureId).1 = .error (.insufficientFundsForDeploy sender))
        ∧ (matchesInsufficientFundsForTransfer errorMessage = false →
           matchesContractCreationOutOfGas errorMessage = false →
          (sendTransactionForOnchainInteraction env sender onchainInteraction
            futureId).1 = .error (.gasEstimationFailed errorMessage))) := by
  refine ⟨?_, ?_, ?_⟩
  · simp only [sendTransactionForOnchainInteraction, hfee, hest]
    split
    · rfl
    · split
      · rfl
      · split <;> rfl
  · intro d hdec
    simp only [paramsWithoutFeesOf] at hdec
    simp [sendTransactionForOnchainInteraction, hfee, hest, hdec]
  · intro hdec
    simp only [paramsWithoutFeesOf] at hdec
    refine ⟨?_, ?_, ?_⟩
    · intro h1
      simp [sendTransactionForOnchainInteraction, hfee, hest, hdec, h1]
      simp [estimateGasParamsOf]
    · intro h1 h2
      simp [sendTransactionForOnchainInteraction, hfee, hest, hdec, h1, h2]
    · intro h1 h2
      simp [sendTransactionForOnchainInteraction, hfee, hest, hdec, h1, h2]

/-- Witness for C5 at the spec's scenario 7: gas estimation throws
`"insufficient funds for transfer"`, the follow-up call decodes to nothing,
and the pipeline fails with `INSUFFICIENT_FUNDS_FOR_TRANSFER` carrying the
sender and the value 7. -/
theorem sendTransaction_estimationFailure_witness :
    (sendTransactionForOnchainInteraction
        ⟨5, .eip1559 100 2, fun _ => .error "insufficient funds for transfer",
          fun _ _ => ⟨"", true⟩, fun _ => none, fun _ => "0xaa"⟩ "0xA"
        ⟨1, some "0xB", "", 7, none, []⟩ "fut1").1 =
      .error (.insufficientFundsForTransfer "0xA" 7) :=
  (((sendTransaction_estimationFailure
      ⟨5, .eip1559 100 2, fun _ => .error "insufficient funds for transfer",
        fun _ _ => ⟨"", true⟩, fun _ => none, fun _ => "0xaa"⟩ "0xA"
      ⟨1, some "0xB", "", 7, none, []⟩ "fut1" (.eip1559 100 2)
      "insufficient funds for transfer" rfl rfl).2.2 rfl).1 (by decide))

/-- Claim C10: on every non-sent outcome of the pipeline — a decoded
simulation error from either path, or a thrown typed error — the trace holds
no journal record and no broadcast. -/
theorem sendTransaction_noEffectsOnFailure (env : SendEnv) (sender : String)
    (onchainInteraction : OnchainInteraction) (futureId : String)
    (hns : isSentOutcome (sendTransactionForOnchainInteraction env sender
      onchainInteraction futureId).1 = false) :
    (sendTransactionForOnchainInteraction env sender onchainInteraction
        futureId).2.all
      (fun a => !a.isJournalRecord && !a.isSendTransactionCall) = true := by
  cases hfee : getNextTransactionFees env.getNetworkFees
      onchainInteraction.transactions with
  | error m => simp [sendTransactionForOnchainInteraction, hfee]
  | ok fees =>
    cases hest : env.estimateGas (estimateGasParamsOf env sender
        onchainInteraction fees) with
    | error msg =>
      have htr : (sendTransactionForOnchainInteraction env sender
          onchainInteraction futureId).2 =
          [.estimateGasCall (estimateGasParamsOf env sender onchainInteraction
            fees),
           .ethCall (paramsWithoutFeesOf env sender onchainInteraction fees)
             "pending"] := by
        simp only [sendTransactionForOnchainInteraction, hfee, hest]
        split
        · rfl
        · split
          · rfl
          · split <;> rfl
      rw [htr]
      simp [SendAction.isJournalRecord, SendAction.isSendTransactionCall]
    | ok gasLimit =>
      cases hdec : env.decodeSimulationResult (env.callResult
          (transactionParamsOf env sender onchainInteraction fees gasLimit)
          "pending") with
      | none =>
        exfalso
        simp only [transactionParamsOf] at hdec
        simp [sendTransactionForOnchainInteraction, hfee, hest, hdec,
          isSentOutcome] at hns
      | some d =>
        simp only [transactionParamsOf] at hdec
        simp [sendTransactionForOnchainInteraction, hfee, hest, hdec,
          SendAction.isJournalRecord, SendAction.isSendTransactionCall]

/-- Witness for C10: a failing estimation with an unrecognized message ends
in `GAS_ESTIMATION_FAILED` and the trace holds neither a journal write nor a
broadcast. -/
theorem sendTransaction_noEffectsOnFailure_witness :
    (sendTransactionForOnchainInteraction
        ⟨5, .eip1559 100 2, fun _ => .error "boom", fun _ _ => ⟨"", true⟩,
          fun _ => none, fun _ => "0xaa"⟩ "0xA"
        ⟨1, some "0xB", "", 7, none, []⟩ "fut1").2.all
      (fun a => !a.isJournalRecord && !a.isSendTransactionCall) = true :=
  sendTransaction_noEffectsOnFailure
    ⟨5, .eip1559 100 2, fun _ => .error "boom", fun _ _ => ⟨"", true⟩,
      fun _ => none, fun _ => "0xaa"⟩ "0xA" ⟨1, some "0xB", "", 7, none, []⟩
    "fut1" (by decide)
